import Mathlib

/-
Verification of the line-bisection code of this repository against its
specification.  The two source files are embedded shallowly:

* `lbsearch` models `src/lbsearch-doesnotwork.c` (the full tool).  A byte
  region is a `List Nat` of byte values; the mutable cursor field `yf->ofs`
  of the C `yfile` struct is threaded explicitly as a `Nat` argument and
  returned alongside results.  A read outside the mapped region (undefined
  behaviour in C) is modeled by returning `none`.
* `bisectc` models `src/bisect.c` (the prototype).

All definitions are executable, so concrete runs can be settled by
evaluation.
-/

namespace lbsearch

/-- The `compare_mode_t` enumeration of lbsearch-doesnotwork.c (lines 157-162). -/
inductive compare_mode_t | CM_LE | CM_LT | CM_LP | CM_UNSET
deriving DecidableEq, Repr

/-- The `printing_t` enumeration of lbsearch-doesnotwork.c (lines 336-341). -/
inductive printing_t | PR_OFFSETS | PR_CONTENTS | PR_DETECT | PR_UNSET
deriving DecidableEq, Repr

/-- The `incomplete_t` enumeration of lbsearch-doesnotwork.c (lines 343-347). -/
inductive incomplete_t | IN_IGNORE | IN_USE | IN_UNSET
deriving DecidableEq, Repr

open compare_mode_t printing_t incomplete_t

/-- The scanning loop of `get_fofs` (lines 150-153): starting at byte index
`p` (with `l = file.drop p`), read bytes until one equals the terminator 10
and return the position just past it.  The C loop has no bounds check, so
running off the end of the region (an out-of-bounds read) is `none`. -/
def scan_from : List Nat → Nat → Option Nat
  | [], _ => none
  | c :: rest, p => if c = 10 then some (p + 1) else scan_from rest (p + 1)

/-- `get_fofs` of lbsearch-doesnotwork.c (lines 141-155).  `cur` is the
incoming cursor `yf->ofs`; the result pairs the returned offset with the
cursor value left behind (the C code sets `yf->ofs = ofs - 1` just before
its scan loop and the local `ofs` alone advances). -/
def get_fofs (file : List Nat) (cur : Nat) (ofs : Nat) : Option (Nat × Nat) :=
  if ofs = 0 then some (0, cur)
  else if ofs > file.length then some (file.length, cur)
  else (scan_from (file.drop (ofs - 1)) (ofs - 1)).map (fun r => (r, ofs - 1))

/-- The byte-walking loop of `compare_line` (lines 171-182) in the case
where the single line byte `c` it ever reads is an ordinary byte
(`0 <= c < 128`, `c` not the terminator): the C loop never advances
`yf->ofs`, so every iteration re-reads the same byte `c` while walking the
key `x`. -/
def cl_walk (cm : compare_mode_t) (c : Nat) : List Nat → Bool
  | [] => decide (cm ≠ CM_LP)
  | b :: rest => if b ≠ c then decide (b < c) else cl_walk cm c rest

/-- `compare_line` of lbsearch-doesnotwork.c (lines 165-183).  A byte whose
signed `char` reading is negative (value at least 128) takes the same
branch as the terminator 10.  The comparator always sets `yf->ofs = fofs`;
callers perform that cursor update.  Reading past the region is `none`. -/
def compare_line (file : List Nat) (fofs : Nat) (x : List Nat)
    (cm : compare_mode_t) : Option Bool :=
  if fofs = file.length then some true
  else if h : fofs < file.length then
    let c := file[fofs]
    if 128 ≤ c ∨ c = 10 then some (decide (cm = CM_LE) && decide (x = []))
    else some (cl_walk cm c x)
  else none

/-- The do-while loop of `bisect_way` (lines 203-215) together with the
final `mid == lo ? midf : get_fofs(yf, lo)` (line 216).  Arguments `lo`,
`hi`, `cur` are the loop state; the cursor entering an iteration is the
previous `compare_line`'s `fofs` (it sets `yf->ofs = fofs`). -/
def bw_loop (file x : List Nat) (cm : compare_mode_t) (lo hi cur : Nat) :
    Option (Nat × Nat) :=
  match get_fofs file cur ((lo + hi) / 2) with
  | none => none
  | some (midf, _) =>
    match compare_line file midf x cm with
    | none => none
    | some cmp =>
      if cmp then
        if h : lo < (lo + hi) / 2 then bw_loop file x cm lo ((lo + hi) / 2) midf
        else if (lo + hi) / 2 = lo then some (midf, midf)
        else get_fofs file midf lo
      else
        if h : (lo + hi) / 2 + 1 < hi then bw_loop file x cm ((lo + hi) / 2 + 1) hi midf
        else get_fofs file midf ((lo + hi) / 2 + 1)
termination_by hi - lo
decreasing_by
· omega
· omega

/-- `bisect_way` of lbsearch-doesnotwork.c (lines 191-216).  `cur` is the
incoming `yf->ofs`.  The `(off_t)-1` sentinel for `hi` compares, via the
unsigned cast on line 197, above `size`, so any `hi > size` clamps to
`size`; callers pass `size + 1` for `-1`.  Note the degenerate
`lo >= hi` case returns the cursor `yf->ofs` (line 202). -/
def bisect_way (file x : List Nat) (cm : compare_mode_t) (cur lo hi : Nat) :
    Option (Nat × Nat) :=
  let size := file.length
  let hi1 := if hi > size then size else hi
  if x = [] ∧ cm = CM_LP ∧ hi1 = size then some (hi1, cur)
  else
    let hi2 := if x = [] ∧ cm = CM_LE then lo else hi1
    if lo ≥ hi2 then some (cur, cur)
    else bw_loop file x cm lo hi2 cur

/-- `bisect_interval` of lbsearch-doesnotwork.c (lines 219-231), returning
`(start, end, final cursor)`.  The `memcmp` shortcut on line 226 is list
equality of the two keys. -/
def bisect_interval (file : List Nat) (cur lo hi : Nat) (cm : compare_mode_t)
    (x y : List Nat) : Option (Nat × Nat × Nat) :=
  match bisect_way file x CM_LE cur lo hi with
  | none => none
  | some (start, c1) =>
    if cm = CM_LE ∧ x = y then some (start, start, c1)
    else
      match bisect_way file y cm c1 start hi with
      | none => none
      | some (e, c2) => some (start, e, c2)

/-- The configuration computed by the command-line parsing part of `main`
(lines 349-427): boundary mode, start mode, printing mode, incomplete-line
mode, and the two truncated keys (`y = none` when `argc == 4`). -/
structure Config where
  cm : compare_mode_t
  cmstart : compare_mode_t
  printing : printing_t
  incomplete : incomplete_t
  x : List Nat
  y : Option (List Nat)
deriving DecidableEq, Repr

/-- A C string stops at its first NUL byte. -/
def cstr (s : List Nat) : List Nat := s.takeWhile (fun b => b ≠ 0)

/-- The flag-parsing loop of `main` (lines 383-416).  Each duplicate or
unsupported flag is a usage error. -/
def parse_flags : List Nat → compare_mode_t → compare_mode_t → printing_t →
    incomplete_t → Except Unit (compare_mode_t × compare_mode_t × printing_t × incomplete_t)
  | [], cm, cmstart, pr, inc => Except.ok (cm, cmstart, pr, inc)
  | f :: rest, cm, cmstart, pr, inc =>
    if f = 101 then
      if cm ≠ CM_UNSET then Except.error () else parse_flags rest CM_LE cmstart pr inc
    else if f = 116 then
      if cm ≠ CM_UNSET then Except.error () else parse_flags rest CM_LT cmstart pr inc
    else if f = 112 then
      if cm ≠ CM_UNSET then Except.error () else parse_flags rest CM_LP cmstart pr inc
    else if f = 98 then
      if cmstart ≠ CM_UNSET then Except.error () else parse_flags rest cm CM_LE pr inc
    else if f = 97 then
      if cmstart ≠ CM_UNSET then Except.error () else parse_flags rest cm CM_LT pr inc
    else if f = 111 then
      if pr ≠ PR_UNSET then Except.error () else parse_flags rest cm cmstart PR_OFFSETS inc
    else if f = 99 then
      if pr ≠ PR_UNSET then Except.error () else parse_flags rest cm cmstart PR_CONTENTS inc
    else if f = 113 then
      if pr ≠ PR_UNSET then Except.error () else parse_flags rest cm cmstart PR_DETECT inc
    else if f = 105 then
      if inc ≠ IN_UNSET then Except.error () else parse_flags rest cm cmstart pr IN_IGNORE
    else Except.error ()

/-- Argument parsing and validation of `main` (lines 366-427): argument
count, leading `-`, flag loop, defaults, and the three flag-combination
checks.  Keys are truncated at the first NUL or terminator byte
(lines 372-381).  `Except.error ()` is a usage error. -/
def parse_args (argv : List (List Nat)) : Except Unit Config :=
  match argv with
  | [_, a1, _, a3] => parse_rest a1 a3 none
  | [_, a1, _, a3, a4] => parse_rest a1 a3 (some a4)
  | _ => Except.error ()
where
  parse_rest (a1 a3 : List Nat) (a4 : Option (List Nat)) : Except Unit Config :=
    match cstr a1 with
    | 45 :: flags =>
      let x := (cstr a3).takeWhile (fun b => b ≠ 10)
      let y := a4.map (fun s => (cstr s).takeWhile (fun b => b ≠ 10))
      match parse_flags flags CM_UNSET CM_UNSET PR_UNSET IN_UNSET with
      | Except.error () => Except.error ()
      | Except.ok (cm0, cmstart0, pr0, inc0) =>
        let pr := if pr0 = PR_UNSET then PR_CONTENTS else pr0
        let inc := if inc0 = IN_UNSET then IN_USE else inc0
        let cmstart := if cmstart0 = CM_UNSET then CM_LE else cmstart0
        if cm0 = CM_UNSET then Except.error ()
        else if cmstart = CM_LT ∧ ¬(y = none ∧ cm0 = CM_LE ∧ pr = PR_OFFSETS) then
          Except.error ()
        else if y = none ∧ pr ≠ PR_OFFSETS ∧ cm0 = CM_LE then Except.error ()
        else Except.ok ⟨cm0, cmstart, pr, inc, x, y⟩
    | _ => Except.error ()

/-- The search-and-exit part of `main` (lines 429-468) after a successful
open of the file, returning the process exit code.  `c0` is the value of
the never-initialized cursor field `yf->ofs` right after `yfopen`; `none`
is an out-of-bounds read (a crash) inside the search.  Exit sites:
`exit(3)` on lines 442 and 448, `if (start >= end) exit(3)` on line 466,
`EXIT_SUCCESS` (0) on line 468. -/
def run_config (cfg : Config) (file : List Nat) (c0 : Nat) : Option Nat :=
  if cfg.y = none ∧ cfg.cm = CM_LE ∧ cfg.printing = PR_OFFSETS then
    match bisect_way file cfg.x cfg.cmstart c0 0 (file.length + 1) with
    | none => none
    | some _ => some 0
  else if cfg.printing = PR_DETECT ∧ (cfg.y = none ∨ cfg.y = some cfg.x) then
    if cfg.cm = CM_LE then some 3
    else
      match bisect_way file cfg.x CM_LE c0 0 (file.length + 1) with
      | none => none
      | some (start, c1) =>
        match get_fofs file c1 start with
        | none => none
        | some (fofs, _) =>
          match compare_line file fofs cfg.x cfg.cm with
          | none => none
          | some cmp => if cmp then some 3 else some 0
  else
    match bisect_interval file c0 0 (file.length + 1) cfg.cm cfg.x (cfg.y.getD cfg.x) with
    | none => none
    | some (start, e, _) => if start ≥ e then some 3 else some 0

/-- `main` of lbsearch-doesnotwork.c as an exit-code function: a usage
error exits through `usage_error` (lines 235-253), whose `die5_code` call
passes exit code 1 (line 252); otherwise the search of `run_config` runs
on the opened byte region. -/
def pts_main (argv : List (List Nat)) (file : List Nat) (c0 : Nat) : Option Nat :=
  match parse_args argv with
  | Except.error () => some 1
  | Except.ok cfg => run_config cfg file c0

end lbsearch

namespace bisectc

/-- The scanning loop of `get_fofs` in bisect.c (lines 22-32) with
`l = file.drop p`: it stops with `p` when the region ends (line 23) and
with `p + 1` just past a terminator byte.  The `printf` of the found line
(lines 27-29) is an output side effect with no bearing on the returned
offset and is not modeled. -/
def scanb : List Nat → Nat → Nat
  | [], p => p
  | c :: rest, p => if c = 10 then p + 1 else scanb rest (p + 1)

/-- `get_fofs` of bisect.c (lines 16-33), with `size = file.length`.  It is
total: the `size == ofs` check (line 23) returns `size` when no terminator
is found. -/
def get_fofs (file : List Nat) (ofs : Nat) : Nat :=
  if ofs = 0 then 0
  else if ofs > file.length then file.length
  else scanb (file.drop (ofs - 1)) (ofs - 1)

end bisectc

/-- Lexicographic strict order on byte strings (unsigned byte values), used
to state the spec's matching-lines predicate. -/
def lex_lt : List Nat → List Nat → Bool
  | [], [] => false
  | [], _ :: _ => true
  | _ :: _, [] => false
  | a :: as, b :: bs => decide (a < b) || (decide (a = b) && lex_lt as bs)

/-- The lines of a byte region, split at the terminator byte 10; a final
line without a trailing terminator (the incomplete last line) is included. -/
def split_lines : List Nat → List (List Nat)
  | [] => []
  | c :: rest =>
    if c = 10 then [] :: split_lines rest
    else
      match split_lines rest with
      | [] => [[c]]
      | L :: Ls => (c :: L) :: Ls

/-! Helper lemmas shared by the claim theorems. -/

/-- Every successful run of the search part of `main` exits with code 0 or
code 3; the only other exit of `pts_main` is the usage exit 1. -/
theorem run_exit_cases (cfg : lbsearch.Config) (file : List Nat) (c0 r : Nat)
    (h : lbsearch.run_config cfg file c0 = some r) : r = 0 ∨ r = 3 := by
  unfold lbsearch.run_config at h
  split at h
  · cases hbw : lbsearch.bisect_way file cfg.x cfg.cmstart c0 0 (file.length + 1) with
    | none => simp only [hbw] at h; exact Option.noConfusion h
    | some p => simp only [hbw, Option.some.injEq] at h; omega
  · split at h
    · split at h
      · simp only [Option.some.injEq] at h; omega
      · cases hbw : lbsearch.bisect_way file cfg.x lbsearch.compare_mode_t.CM_LE c0 0
            (file.length + 1) with
        | none => simp only [hbw] at h; exact Option.noConfusion h
        | some p =>
          obtain ⟨s1, c1⟩ := p
          simp only [hbw] at h
          cases hgf : lbsearch.get_fofs file c1 s1 with
          | none => simp only [hgf] at h; exact Option.noConfusion h
          | some q =>
            obtain ⟨fofs, c2⟩ := q
            simp only [hgf] at h
            cases hcl : lbsearch.compare_line file fofs cfg.x cfg.cm with
            | none => simp only [hcl] at h; exact Option.noConfusion h
            | some b =>
              simp only [hcl] at h
              cases b <;> simp at h <;> omega
    · cases hbi : lbsearch.bisect_interval file c0 0 (file.length + 1) cfg.cm cfg.x
          (cfg.y.getD cfg.x) with
      | none => simp only [hbi] at h; exact Option.noConfusion h
      | some t =>
        obtain ⟨s, e, c⟩ := t
        simp only [hbi] at h
        split at h <;> simp only [Option.some.injEq] at h <;> omega

/-- When the byte the comparator reads is a terminator or has its high bit
set, `compare_line` returns the end-of-line-branch value. -/
theorem compare_line_eol (f : List Nat) (i : Nat) (x : List Nat)
    (cm : lbsearch.compare_mode_t) (hf : i < f.length) (hb : 128 ≤ f[i] ∨ f[i] = 10) :
    lbsearch.compare_line f i x cm
      = some (decide (cm = lbsearch.compare_mode_t.CM_LE) && decide (x = [])) := by
  unfold lbsearch.compare_line
  rw [if_neg (Nat.ne_of_lt hf), dif_pos hf, if_pos hb]

/-! Claim theorems. -/

/-- C1: the claim that `bisect_interval` always returns exactly the byte
span of the matching lines, empty (start = end) iff no line matches, fails
on the code.  On the sorted one-line region with bytes of the two lower-case
letters a, c and a terminator, with x the two letters a, b and y the two
letters a, c and mode `CM_LT` (claim reading: lines L with x <= L and
L < y, so no line matches), the code returns (start, end) = (3, 0) with
start different from end, whatever the initial cursor value: its comparator
re-reads the first line byte without ever advancing, and the degenerate
second bisection returns the stale cursor. -/
theorem c1_interval_not_span : ∀ c0 : Nat,
    lbsearch.bisect_interval [97, 99, 10] c0 0 4 lbsearch.compare_mode_t.CM_LT
        [97, 98] [97, 99] = some (3, 0, 0)
    ∧ ((split_lines [97, 99, 10]).filter
        (fun L => !lex_lt L [97, 98] && lex_lt L [97, 99]) = [])
    ∧ (3 : Nat) ≠ 0 := by
  intro c0
  refine ⟨?_, by decide, by decide⟩
  simp [lbsearch.bisect_interval, lbsearch.bisect_way, lbsearch.bw_loop, lbsearch.get_fofs,
    lbsearch.compare_line, lbsearch.cl_walk, lbsearch.scan_from, List.drop]

/-- C2: on the one-byte region without a terminator (an incomplete last
line), asked to resolve offset 1 = size, the `get_fofs` of
lbsearch-doesnotwork.c scans past the end of the region (an out-of-bounds
read, `none`) instead of returning `size`; the `get_fofs` of bisect.c has
the end-of-region check and returns `size` = 1 as the claim states. -/
theorem c2_get_fofs_incomplete_line : ∀ cur : Nat,
    lbsearch.get_fofs [97] cur 1 = none ∧ bisectc.get_fofs [97] 1 = 1 :=
  fun _ => ⟨rfl, rfl⟩

/-- C3: the claimed in-bounds property fails: on the two-byte region with
no terminator, `get_fofs` at the valid offset 1 (0 < 1 <= size = 2) reaches
the out-of-bounds branch (the C code reads the byte at index 2). -/
theorem c3_get_fofs_out_of_bounds : ∀ cur : Nat,
    lbsearch.get_fofs [97, 98] cur 1 = none :=
  fun _ => rfl

/-- C4 counterexample: probing at end-of-file (resolved line start 2 =
size), `compare_line` under mode `CM_LT` returns true, not false as the
claim states. -/
theorem c4_compare_line_eof_lt_true :
    lbsearch.compare_line [97, 10] 2 [97] lbsearch.compare_mode_t.CM_LT = some true
    ∧ lbsearch.compare_line [97, 10] 2 [97] lbsearch.compare_mode_t.CM_LT ≠ some false := by
  decide

/-- C4 amended: when the resolved line start equals `size`, `compare_line`
returns true for every mode (`CM_LE`, `CM_LT` and `CM_LP` alike) and every
key: the `yf->ofs == yf->size` special case on line 169 returns 1 before
the mode is ever examined. -/
theorem c4_compare_line_eof_all_modes (file x : List Nat)
    (cm : lbsearch.compare_mode_t) :
    lbsearch.compare_line file file.length x cm = some true := by
  simp [lbsearch.compare_line]

/-- C5: called on the two-line region with lo = hi = 1 and a stale cursor 3,
`bisect_way` returns 3, the cursor, whereas the resolved line start
`get_fofs(region, 1)` is 2: the degenerate case returns `yf->ofs`
(line 202), not the resolved line start the claim (and bisect.c, line 64)
specifies. -/
theorem c5_degenerate_returns_cursor :
    (lbsearch.bisect_way [97, 10, 98, 10] [120] lbsearch.compare_mode_t.CM_LE 3 1 1).map
        Prod.fst = some 3
    ∧ (lbsearch.get_fofs [97, 10, 98, 10] 3 1).map Prod.fst = some 2
    ∧ (3 : Nat) ≠ 2 := by
  decide

/-- C6: `bisect_way` is not a function of its arguments alone: with
identical arguments (region of the lines of one letter a and one letter b,
lo = hi = 0, key of one letter x, mode `CM_LE`) it returns 2 after a prior
`get_fofs` at offset 3 (which leaves cursor 2) and 0 after a prior
`get_fofs` at offset 1 (which leaves cursor 0). -/
theorem c6_result_depends_on_prior_calls :
    (lbsearch.bisect_way [97, 10, 98, 10] [120] lbsearch.compare_mode_t.CM_LE 2 0 0).map
        Prod.fst = some 2
    ∧ (lbsearch.bisect_way [97, 10, 98, 10] [120] lbsearch.compare_mode_t.CM_LE 0 0 0).map
        Prod.fst = some 0
    ∧ lbsearch.get_fofs [97, 10, 98, 10] 9 3 = some (4, 2)
    ∧ lbsearch.get_fofs [97, 10, 98, 10] 9 1 = some (2, 0)
    ∧ (2 : Nat) ≠ 0 := by
  decide

/-- C7 counterexample: an invocation with the unsupported flag z exits with
code 1, not 2 as the claim states (`usage_error` passes exit code 1 on
line 252). -/
theorem c7_usage_exits_one :
    lbsearch.pts_main [[112], [45, 122], [102], [107]] [] 0 = some 1
    ∧ (1 : Nat) ≠ 2 := by
  decide

/-- C7 amended: every usage error exits with code 1 (not 2); apart from
usage errors the embedded tool (in which opening the region and writing
output succeed, so no I/O-error exit 2 arises) exits 0 or 3, and on the
general interval path the exit code is 3 exactly when the computed interval
satisfies start >= end (no match). -/
theorem c7_exit_codes (argv : List (List Nat)) (file : List Nat) (c0 r : Nat)
    (h : lbsearch.pts_main argv file c0 = some r) :
    ((lbsearch.parse_args argv = Except.error ()) ↔ r = 1)
    ∧ (r = 0 ∨ r = 1 ∨ r = 3)
    ∧ (∀ cfg : lbsearch.Config, lbsearch.parse_args argv = Except.ok cfg →
        cfg.printing ≠ lbsearch.printing_t.PR_DETECT →
        ¬(cfg.y = none ∧ cfg.cm = lbsearch.compare_mode_t.CM_LE
            ∧ cfg.printing = lbsearch.printing_t.PR_OFFSETS) →
        ∀ s e c, lbsearch.bisect_interval file c0 0 (file.length + 1) cfg.cm cfg.x
            (cfg.y.getD cfg.x) = some (s, e, c) →
          (r = 3 ↔ s ≥ e)) := by
  unfold lbsearch.pts_main at h
  cases hp : lbsearch.parse_args argv with
  | error u =>
    cases u
    rw [hp] at h
    have hr : r = 1 := by simpa using h.symm
    subst hr
    refine ⟨by simp, Or.inr (Or.inl rfl), ?_⟩
    intro cfg hcfg
    simp at hcfg
  | ok cfg =>
    rw [hp] at h
    simp only [] at h
    have h03 := run_exit_cases cfg file c0 r h
    have hne1 : r ≠ 1 := by omega
    refine ⟨⟨fun he => absurd he (by simp), fun h1 => absurd h1 hne1⟩, by omega, ?_⟩
    intro cfg' hcfg' hnd hnb s e c hbi
    have hcc : cfg = cfg' := Except.ok.inj hcfg'
    subst hcc
    unfold lbsearch.run_config at h
    rw [if_neg hnb] at h
    rw [if_neg (by intro hh; exact hnd hh.1)] at h
    simp only [hbi] at h
    by_cases hse : s ≥ e
    · rw [if_pos hse] at h
      have hr : r = 3 := by simpa using h.symm
      exact ⟨fun _ => hse, fun _ => hr⟩
    · rw [if_neg hse] at h
      have hr : r = 0 := by simpa using h.symm
      exact ⟨fun h3 => absurd (hr ▸ h3) (by omega), fun hge => absurd hge hse⟩

/-- C7 witness: the theorem applied to the one-argument invocation, a usage
error, which exits with code 1. -/
theorem c7_exit_codes_witness :
    ((lbsearch.parse_args [[112]] = Except.error ()) ↔ (1 : Nat) = 1)
    ∧ ((1 : Nat) = 0 ∨ (1 : Nat) = 1 ∨ (1 : Nat) = 3)
    ∧ (∀ cfg : lbsearch.Config, lbsearch.parse_args [[112]] = Except.ok cfg →
        cfg.printing ≠ lbsearch.printing_t.PR_DETECT →
        ¬(cfg.y = none ∧ cfg.cm = lbsearch.compare_mode_t.CM_LE
            ∧ cfg.printing = lbsearch.printing_t.PR_OFFSETS) →
        ∀ s e c, lbsearch.bisect_interval [] 0 0 1 cfg.cm cfg.x
            (cfg.y.getD cfg.x) = some (s, e, c) →
          ((1 : Nat) = 3 ↔ s ≥ e)) :=
  c7_exit_codes [[112]] [] 0 1 rfl

/-- C8: a line byte whose signed 8-bit reading is negative (value at least
128) is treated by `compare_line` exactly like the terminator byte 10: the
comparison is unchanged when that byte is replaced by a terminator, for
every key and mode. -/
theorem c8_high_byte_is_terminator (file : List Nat) (i : Nat) (x : List Nat)
    (cm : lbsearch.compare_mode_t) (c : Nat) (hc : file[i]? = some c)
    (h128 : 128 ≤ c) :
    lbsearch.compare_line file i x cm
      = lbsearch.compare_line (file.set i 10) i x cm := by
  obtain ⟨hlt, hval⟩ := List.getElem?_eq_some.mp hc
  have hlt2 : i < (file.set i 10).length := by simpa using hlt
  rw [compare_line_eol file i x cm hlt (Or.inl (hval ▸ h128)),
    compare_line_eol (file.set i 10) i x cm hlt2 (Or.inr (List.getElem_set_self ..))]

/-- C8 witness: the theorem applied to the one-byte region holding 200: the
comparator treats it like a region holding the terminator. -/
theorem c8_high_byte_is_terminator_witness :
    lbsearch.compare_line [200] 0 [97] lbsearch.compare_mode_t.CM_LT
      = lbsearch.compare_line ([200].set 0 10) 0 [97] lbsearch.compare_mode_t.CM_LT :=
  c8_high_byte_is_terminator [200] 0 [97] lbsearch.compare_mode_t.CM_LT 200 rfl
    (by norm_num)

/-- C9: the i flag changes nothing.  The search-and-exit part of `main`
never reads the parsed `incomplete` field (the claim theorem varies it
freely), and in particular the full tool behaves identically under the
flag lists t, i and t on every file and cursor, so the incomplete last
line is never ignored. -/
theorem c9_incomplete_flag_unused :
    (∀ (cm cmstart : lbsearch.compare_mode_t) (pr : lbsearch.printing_t)
        (i1 i2 : lbsearch.incomplete_t) (x : List Nat) (y : Option (List Nat))
        (file : List Nat) (c0 : Nat),
      lbsearch.run_config ⟨cm, cmstart, pr, i1, x, y⟩ file c0
        = lbsearch.run_config ⟨cm, cmstart, pr, i2, x, y⟩ file c0)
    ∧ (∀ (file : List Nat) (c0 : Nat),
      lbsearch.pts_main [[112], [45, 116, 105], [102], [98], [99]] file c0
        = lbsearch.pts_main [[112], [45, 116], [102], [98], [99]] file c0) :=
  ⟨fun _ _ _ _ _ _ _ _ _ => rfl, fun _ _ => rfl⟩

/-- C10: the quiet-mode shortcut does not agree with the general interval
path.  On the one-line region of the two letters a, b and a terminator,
with the empty key, mode `CM_LT` and the uninitialized cursor equal to 1,
the quiet invocation (flags t, q) exits 3 (no match) while the offsets
invocation (flags t, o), which runs `bisect_interval` on the same
single-key query, computes the non-empty interval (1, 3) and exits 0. -/
theorem c10_detect_disagrees_with_interval :
    lbsearch.pts_main [[112], [45, 116, 113], [102], []] [97, 98, 10] 1 = some 3
    ∧ lbsearch.pts_main [[112], [45, 116, 111], [102], []] [97, 98, 10] 1 = some 0
    ∧ lbsearch.bisect_interval [97, 98, 10] 1 0 4 lbsearch.compare_mode_t.CM_LT [] []
        = some (1, 3, 3)
    ∧ ¬((1 : Nat) ≥ 3) := by
  refine ⟨by decide, ?_, ?_, by decide⟩
  · simp [lbsearch.pts_main, lbsearch.parse_args, lbsearch.parse_args.parse_rest,
      lbsearch.parse_flags, lbsearch.cstr, lbsearch.run_config, lbsearch.bisect_interval,
      lbsearch.bisect_way, lbsearch.bw_loop, lbsearch.get_fofs, lbsearch.compare_line,
      lbsearch.cl_walk, lbsearch.scan_from, List.drop, List.takeWhile]
  · simp [lbsearch.bisect_interval, lbsearch.bisect_way, lbsearch.bw_loop,
      lbsearch.get_fofs, lbsearch.compare_line, lbsearch.cl_walk, lbsearch.scan_from,
      List.drop]
